import Mathlib

/-
Verification of the Microsoft Teams conversation exporter
(src/teams_exporter.py) against its natural-language specification.

The Python source is shallowly embedded below.  Pure helpers
(clean_html_content, the custody-ledger master hash, date formatting)
become Lean functions; the paginated HTTP collection loop becomes a
recursion over an explicit list of server responses; the hashlib.sha256
library call is embedded as a full executable FIPS 180-4 SHA-256 over
byte lists (Nat values < 256, word arithmetic taken mod 2^32).
-/

namespace TeamsExporter

/-! ### SHA-256 (embedding of Python's hashlib.sha256(...).hexdigest()) -/

/-- Truncation to a 32-bit word. -/
def w32 (n : Nat) : Nat := n % 4294967296

/-- Right rotation of a 32-bit word. -/
def rotr32 (k n : Nat) : Nat := w32 ((n >>> k) ||| (n <<< (32 - k)))

/-- The 64 SHA-256 round constants (FIPS 180-4 section 4.2.2), in decimal
(0x428a2f98 is 1116352408, and so on; the theorems
`sha256_vector_empty` and `sha256_vector_abc` validate the table). -/
def shaK : List Nat :=
  [1116352408, 1899447441, 3049323471, 3921009573, 961987163, 1508970993,
   2453635748, 2870763221, 3624381080, 310598401, 607225278, 1426881987,
   1925078388, 2162078206, 2614888103, 3248222580, 3835390401, 4022224774,
   264347078, 604807628, 770255983, 1249150122, 1555081692, 1996064986,
   2554220882, 2821834349, 2952996808, 3210313671, 3336571891, 3584528711,
   113926993, 338241895, 666307205, 773529912, 1294757372, 1396182291,
   1695183700, 1986661051, 2177026350, 2456956037, 2730485921, 2820302411,
   3259730800, 3345764771, 3516065817, 3600352804, 4094571909, 275423344,
   430227734, 506948616, 659060556, 883997877, 958139571, 1322822218,
   1537002063, 1747873779, 1955562222, 2024104815, 2227730452, 2361852424,
   2428436474, 2756734187, 3204031479, 3329325298]

/-- The eight-word SHA-256 working state. -/
structure Hsh where
  a : Nat
  b : Nat
  c : Nat
  d : Nat
  e : Nat
  f : Nat
  g : Nat
  h : Nat
deriving DecidableEq, Repr

/-- Initial hash value (FIPS 180-4 section 5.3.3). -/
def shaH0 : Hsh :=
  ⟨0x6a09e667, 0xbb67ae85, 0x3c6ef372, 0xa54ff53a, 0x510e527f, 0x9b05688c, 0x1f83d9ab, 0x5be0cd19⟩

def chS (x y z : Nat) : Nat := (x &&& y) ^^^ ((x ^^^ 0xffffffff) &&& z)

def majS (x y z : Nat) : Nat := (x &&& y) ^^^ (x &&& z) ^^^ (y &&& z)

def bigS0 (x : Nat) : Nat := rotr32 2 x ^^^ rotr32 13 x ^^^ rotr32 22 x

def bigS1 (x : Nat) : Nat := rotr32 6 x ^^^ rotr32 11 x ^^^ rotr32 25 x

def smallS0 (x : Nat) : Nat := rotr32 7 x ^^^ rotr32 18 x ^^^ (x >>> 3)

def smallS1 (x : Nat) : Nat := rotr32 17 x ^^^ rotr32 19 x ^^^ (x >>> 10)

/-- Big-endian byte expansion of `n` on `k` bytes. -/
def beBytes (k n : Nat) : List Nat :=
  (List.range k).map (fun i => (n >>> (8 * (k - 1 - i))) % 256)

/-- SHA-256 message padding: append 0x80, zeros, and the 64-bit bit length,
reaching a multiple of 64 bytes. -/
def shaPad (msg : List Nat) : List Nat :=
  msg ++ 0x80 :: List.replicate ((64 + 56 - ((msg.length + 1) % 64)) % 64) 0
      ++ beBytes 8 (8 * msg.length)

/-- Group a byte list into big-endian 32-bit words (four bytes per word). -/
def toWords : List Nat → List Nat
  | b0 :: b1 :: b2 :: b3 :: rest =>
      ((b0 <<< 24) ||| (b1 <<< 16) ||| (b2 <<< 8) ||| b3) :: toWords rest
  | _ => []

/-- Split a byte list into 64-byte blocks.  `cur` is the current block,
accumulated in reverse. -/
def blocksAux (cur : List Nat) : List Nat → List (List Nat)
  | [] => if cur.isEmpty then [] else [cur.reverse]
  | b :: rest =>
      let cur' := b :: cur
      if cur'.length = 64 then cur'.reverse :: blocksAux [] rest
      else blocksAux cur' rest

def blocks64 (l : List Nat) : List (List Nat) := blocksAux [] l

/-- Extend the 16 block words to the 64-entry message schedule. -/
def schedW (w : List Nat) : List Nat :=
  (List.range 48).foldl
    (fun w j =>
      w ++ [w32 (smallS1 (w.getD (j + 14) 0) + w.getD (j + 9) 0
                 + smallS0 (w.getD (j + 1) 0) + w.getD j 0)])
    w

/-- One SHA-256 round, taking a round constant paired with a schedule word. -/
def roundStep (st : Hsh) (kw : Nat × Nat) : Hsh :=
  let t1 := w32 (st.h + bigS1 st.e + chS st.e st.f st.g + kw.1 + kw.2)
  let t2 := w32 (bigS0 st.a + majS st.a st.b st.c)
  ⟨w32 (t1 + t2), st.a, st.b, st.c, w32 (st.d + t1), st.e, st.f, st.g⟩

/-- Compression of one 64-byte block into the running hash state. -/
def compressBlock (H : Hsh) (block : List Nat) : Hsh :=
  let w := schedW (toWords block)
  let st := (shaK.zip w).foldl roundStep H
  ⟨w32 (H.a + st.a), w32 (H.b + st.b), w32 (H.c + st.c), w32 (H.d + st.d),
   w32 (H.e + st.e), w32 (H.f + st.f), w32 (H.g + st.g), w32 (H.h + st.h)⟩

/-- The eight final hash words of a byte message. -/
def sha256Words (msg : List Nat) : List Nat :=
  let fin := (blocks64 (shaPad msg)).foldl compressBlock shaH0
  [fin.a, fin.b, fin.c, fin.d, fin.e, fin.f, fin.g, fin.h]

/-- Lower-case hexadecimal digit. -/
def hexDigit (n : Nat) : Char :=
  if n < 10 then Char.ofNat (48 + n) else Char.ofNat (87 + n)

/-- Eight-hex-digit rendering of a 32-bit word. -/
def toHex8 (n : Nat) : List Char :=
  (List.range 8).map (fun i => hexDigit ((n >>> (4 * (7 - i))) % 16))

/-- Embedding of `hashlib.sha256(bytes).hexdigest()`. -/
def sha256hexBytes (msg : List Nat) : String :=
  String.mk ((sha256Words msg).map toHex8).flatten

/-- UTF-8 encoding of one character (embedding of Python `str.encode()`). -/
def utf8Bytes (c : Char) : List Nat :=
  let n := c.toNat
  if n < 0x80 then [n]
  else if n < 0x800 then [0xc0 ||| (n >>> 6), 0x80 ||| (n &&& 0x3f)]
  else if n < 0x10000 then
    [0xe0 ||| (n >>> 12), 0x80 ||| ((n >>> 6) &&& 0x3f), 0x80 ||| (n &&& 0x3f)]
  else
    [0xf0 ||| (n >>> 18), 0x80 ||| ((n >>> 12) &&& 0x3f),
     0x80 ||| ((n >>> 6) &&& 0x3f), 0x80 ||| (n &&& 0x3f)]

def strBytes (s : String) : List Nat := (s.data.map utf8Bytes).flatten

/-- Embedding of `hashlib.sha256(s.encode()).hexdigest()`. -/
def sha256OfString (s : String) : String := sha256hexBytes (strBytes s)

set_option maxRecDepth 100000 in
/-- Validation of the SHA-256 embedding on the FIPS test vector for the
empty message. -/
theorem sha256_vector_empty :
    sha256OfString "" = "e3b0c44298fc1c149afbf4c8996fb92427ae41e4649b934ca495991b7852b855" := by
  decide

set_option maxRecDepth 100000 in
/-- Validation of the SHA-256 embedding on the FIPS test vector for "abc". -/
theorem sha256_vector_abc :
    sha256OfString "abc" = "ba7816bf8f01cfea414140de5dae2223b00361a396177a9cb410ff61f20015ad" := by
  decide

/-! ### String helpers (embeddings of Python `str.replace` and `str.strip`) -/

/-- Attempt to match the literal character list `target` at the head of the
second list, returning the remainder on success. -/
def matchesAt : List Char → List Char → Option (List Char)
  | [], s => some s
  | _ :: _, [] => none
  | t :: ts, c :: cs => if c = t then matchesAt ts cs else none

/-- Fueled worker for Python `str.replace`: replaces every non-overlapping
occurrence of `t :: ts`, scanning left to right.  With fuel at least the
length of the scanned list the fuel never runs out, since every step
consumes at least one character. -/
def pyReplaceF (t : Char) (ts r : List Char) : Nat → List Char → List Char
  | 0, s => s
  | _ + 1, [] => []
  | fuel + 1, c :: cs =>
    match matchesAt (t :: ts) (c :: cs) with
    | some rest => r ++ pyReplaceF t ts r fuel rest
    | none => c :: pyReplaceF t ts r fuel cs

/-- Embedding of Python `str.replace` on character lists (the source only
replaces non-empty targets, so the empty-target case never arises). -/
def pyReplaceL (tgt rep s : List Char) : List Char :=
  match tgt with
  | [] => s
  | c :: cs => pyReplaceF c cs rep s.length s

/-- Embedding of Python `str.replace` on strings. -/
def pyReplace (s tgt rep : String) : String :=
  String.mk (pyReplaceL tgt.data rep.data s.data)

/-- The whitespace characters recognised by Python's `\s` and `str.strip()`
for the ASCII range (the inputs of interest are ASCII). -/
def isPyWs (c : Char) : Bool :=
  c == ' ' || c == '\t' || c == '\n' || c == '\r' || c == '\x0b' || c == '\x0c'

/-- Embedding of `re.sub(r'\s+', ' ', _)`: each maximal whitespace run
becomes a single space.  The flag records whether the previous character
was part of a whitespace run. -/
def collapseWsAux : Bool → List Char → List Char
  | _, [] => []
  | prevWs, c :: rest =>
    if isPyWs c then
      if prevWs then collapseWsAux true rest
      else ' ' :: collapseWsAux true rest
    else c :: collapseWsAux false rest

/-- Embedding of Python `str.strip()` on character lists. -/
def pyStripL (s : List Char) : List Char :=
  ((s.dropWhile isPyWs).reverse.dropWhile isPyWs).reverse

/-- Embedding of Python `str.strip()` on strings. -/
def pyStrip (s : String) : String := String.mk (pyStripL s.data)

/-! ### Regular-expression engine for the two tag-stripping patterns

The source applies `re.sub` with the patterns `<[^>]*style="[^"]*"[^>]*>`
and `<[^>]+>` and empty replacement.  Both are concatenations of literal
characters and greedy negated-class repetitions, embedded here with
Python's leftmost-match, greedy-with-backtracking semantics. -/

/-- One token of such a pattern: a literal character, or `[^cs]` repeated
greedily at least `lo` times. -/
inductive Tok where
  | lit (c : Char)
  | manyNot (lo : Nat) (cs : List Char)
deriving DecidableEq, Repr

/-- Length of the longest prefix avoiding the characters in `cs`. -/
def runLen (cs : List Char) : List Char → Nat
  | [] => 0
  | c :: s => if c ∈ cs then 0 else runLen cs s + 1

/-- The list `[mx, mx-1, ..., lo]`: candidate consumption counts of a
greedy repetition, longest first. -/
def descFrom (lo mx : Nat) : List Nat :=
  (List.range (mx + 1 - lo)).map (fun i => mx - i)

/-- Fueled backtracking matcher: `tryMatchF fuel ts s` returns the
remainder of `s` after the highest-priority match of the token sequence
`ts` at the start of `s`.  Each recursion consumes one token, so fuel
`ts.length + 1` always suffices. -/
def tryMatchF : Nat → List Tok → List Char → Option (List Char)
  | 0, _, _ => none
  | _ + 1, [], s => some s
  | fuel + 1, Tok.lit c :: ts, s =>
    match s with
    | [] => none
    | d :: s' => if d = c then tryMatchF fuel ts s' else none
  | fuel + 1, Tok.manyNot lo cs :: ts, s =>
    let mx := runLen cs s
    if mx < lo then none
    else (descFrom lo mx).findSome? (fun k => tryMatchF fuel ts (s.drop k))

/-- Matcher with adequate fuel. -/
def tryMatchM (ts : List Tok) (s : List Char) : Option (List Char) :=
  tryMatchF (ts.length + 1) ts s

/-- Fueled worker for `re.sub(pattern, '', _)`: scan left to right,
deleting the leftmost match and resuming after it.  Both source patterns
start with a literal `<`, so every match consumes at least one character
and fuel equal to the scanned length suffices. -/
def subAllF (ts : List Tok) : Nat → List Char → List Char
  | 0, s => s
  | _ + 1, [] => []
  | fuel + 1, c :: s =>
    match tryMatchM ts (c :: s) with
    | some r => subAllF ts fuel r
    | none => c :: subAllF ts fuel s

/-- Embedding of `re.sub(pattern, '', s)` for the two tag patterns. -/
def reSubEmpty (ts : List Tok) (s : List Char) : List Char := subAllF ts s.length s

/-- The pattern `<[^>]*style="[^"]*"[^>]*>` from the source. -/
def styleTagPat : List Tok :=
  [Tok.lit '<', Tok.manyNot 0 ['>'], Tok.lit 's', Tok.lit 't', Tok.lit 'y', Tok.lit 'l',
   Tok.lit 'e', Tok.lit '=', Tok.lit '"', Tok.manyNot 0 ['"'], Tok.lit '"',
   Tok.manyNot 0 ['>'], Tok.lit '>']

/-- The pattern `<[^>]+>` from the source. -/
def anyTagPat : List Tok := [Tok.lit '<', Tok.manyNot 1 ['>'], Tok.lit '>']

/-- Embedding of `clean_html_content` from src/teams_exporter.py.  A `none`
input models Python `None`; the falsy test `if not html_content` also
catches the empty string. -/
def clean_html_content (html_content : Option String) : String :=
  match html_content with
  | none => ""
  | some s =>
    if s.isEmpty then ""
    else
      let c1 := reSubEmpty styleTagPat s.data
      let c2 := reSubEmpty anyTagPat c1
      let c3 := pyReplaceL "&nbsp;".data " ".data c2
      let c4 := pyReplaceL "&amp;".data "&".data c3
      let c5 := pyReplaceL "&lt;".data "<".data c4
      let c6 := pyReplaceL "&gt;".data ">".data c5
      let c7 := pyReplaceL "&quot;".data "\"".data c6
      String.mk (pyStripL (collapseWsAux false c7))

/-! ### Date handling (embedding of `datetime.fromisoformat` / `strftime`) -/

/-- Value of a decimal digit character. -/
def digitVal (c : Char) : Option Nat :=
  if 48 ≤ c.toNat ∧ c.toNat ≤ 57 then some (c.toNat - 48) else none

def digits2 (a b : Char) : Option Nat := do
  let x ← digitVal a
  let y ← digitVal b
  some (10 * x + y)

def digits4 (a b c d : Char) : Option Nat := do
  let x ← digits2 a b
  let y ← digits2 c d
  some (100 * x + y)

def isLeapYear (y : Nat) : Bool := (y % 4 == 0 && y % 100 != 0) || y % 400 == 0

def daysInMonth (y m : Nat) : Nat :=
  if m = 2 then (if isLeapYear y then 29 else 28)
  else if m = 4 ∨ m = 6 ∨ m = 9 ∨ m = 11 then 30
  else 31

/-- An aware or naive Python datetime value, as far as the renderer needs
it (`strftime` does not convert time zones). -/
structure PyDateTime where
  year : Nat
  month : Nat
  day : Nat
  hour : Nat
  minute : Nat
  second : Nat
  micro : Nat
  tzOffMinutes : Option Int
deriving DecidableEq, Repr

/-- Fractional seconds: one or more digits, converted to microseconds by
truncation past six digits, as in `datetime.fromisoformat`. -/
def parseFrac (cs : List Char) : Option (Nat × List Char) :=
  let digs := cs.takeWhile (fun c => (digitVal c).isSome)
  if digs.isEmpty then none
  else
    let rest := cs.dropWhile (fun c => (digitVal c).isSome)
    let six := digs.take 6
    let v6 := six.foldl (fun a c => a * 10 + (digitVal c).getD 0) 0
    some (v6 * 10 ^ (6 - six.length), rest)

/-- Time-of-day part `HH[:MM[:SS[.fff[fff]]]]`; returns the remainder,
which must be the time-zone designator (or empty). -/
def parseTime (cs : List Char) : Option (Nat × Nat × Nat × Nat × List Char) :=
  match cs with
  | h1 :: h2 :: rest => do
    let hh ← digits2 h1 h2
    match rest with
    | ':' :: m1 :: m2 :: rest2 => do
      let mm ← digits2 m1 m2
      match rest2 with
      | ':' :: s1 :: s2 :: rest3 => do
        let ss ← digits2 s1 s2
        match rest3 with
        | '.' :: rest4 => do
          let (us, rest5) ← parseFrac rest4
          some (hh, mm, ss, us, rest5)
        | _ => some (hh, mm, ss, 0, rest3)
      | _ => some (hh, mm, 0, 0, rest2)
    | _ => some (hh, 0, 0, 0, rest)
  | _ => none

/-- Time-zone designator `±HH:MM[:SS]`, returned as signed minutes. -/
def parseOff (r : List Char) : Option Nat :=
  match r with
  | h1 :: h2 :: ':' :: m1 :: m2 :: rest => do
    let hh ← digits2 h1 h2
    let mm ← digits2 m1 m2
    let ok ← match rest with
      | [] => some true
      | ':' :: s1 :: s2 :: [] => do
        let ss ← digits2 s1 s2
        if ss ≤ 59 then some true else none
      | _ => none
    if ok ∧ hh ≤ 23 ∧ mm ≤ 59 then some (hh * 60 + mm) else none
  | _ => none

def parseTz : List Char → Option (Option Int)
  | [] => some none
  | '+' :: r => (parseOff r).map (fun o => some (o : Int))
  | '-' :: r => (parseOff r).map (fun o => some (-(o : Int)))
  | _ => none

/-- Model of Python's `datetime.fromisoformat`: `YYYY-MM-DD` optionally
followed by one separator character, a time of day and a UTC-offset
designator, with the same range validation as the `datetime` constructor.
Failure (Python `ValueError`) is `none`. -/
def fromisoformat (s : String) : Option PyDateTime :=
  match s.data with
  | y1 :: y2 :: y3 :: y4 :: '-' :: m1 :: m2 :: '-' :: d1 :: d2 :: rest => do
    let y ← digits4 y1 y2 y3 y4
    let mo ← digits2 m1 m2
    let d ← digits2 d1 d2
    if 1 ≤ y ∧ 1 ≤ mo ∧ mo ≤ 12 ∧ 1 ≤ d ∧ d ≤ daysInMonth y mo then
      match rest with
      | [] => some ⟨y, mo, d, 0, 0, 0, 0, none⟩
      | _ :: timeRest => do
        let (hh, mm, ss, us, tzRest) ← parseTime timeRest
        if hh ≤ 23 ∧ mm ≤ 59 ∧ ss ≤ 59 then do
          let tz ← parseTz tzRest
          some ⟨y, mo, d, hh, mm, ss, us, tz⟩
        else none
    else none
  | _ => none

/-- Zero-padded two-digit decimal rendering. -/
def pad2 (n : Nat) : String := if n < 10 then "0" ++ toString n else toString n

/-- Zero-padded four-digit decimal rendering. -/
def pad4 (n : Nat) : String :=
  if n < 10 then "000" ++ toString n
  else if n < 100 then "00" ++ toString n
  else if n < 1000 then "0" ++ toString n
  else toString n

/-- Embedding of `dt.strftime('%d/%m/%Y %H:%M:%S')`. -/
def strftimeDmyHms (dt : PyDateTime) : String :=
  pad2 dt.day ++ "/" ++ pad2 dt.month ++ "/" ++ pad4 dt.year ++ " "
    ++ pad2 dt.hour ++ ":" ++ pad2 dt.minute ++ ":" ++ pad2 dt.second

/-- Embedding of the date-conversion block of `convert_json_to_pdf`
(src/teams_exporter.py lines 594-599): replace a literal `Z` by `+00:00`,
parse, reformat; on parse failure (the caught exception) the raw string
is used verbatim. -/
def formatDate (created_date : String) : String :=
  match fromisoformat (pyReplace created_date "Z" "+00:00") with
  | some dt => strftimeDmyHms dt
  | none => created_date

/-! ### Data model

Messages, members and HTTP responses as consumed by the exporter.  JSON
objects are embedded by the fields the source reads; a missing (or null)
field is `none`. -/

structure UserInfo where
  displayName : Option String
deriving DecidableEq, Repr

structure FromInfo where
  user : Option UserInfo
deriving DecidableEq, Repr

structure MsgBody where
  content : Option String
deriving DecidableEq, Repr

/-- A message object.  The `from` key is named `fromField` (`from` is a
Lean keyword). -/
structure Msg where
  id : Option String
  createdDateTime : Option String
  fromField : Option FromInfo
  body : Option MsgBody
deriving DecidableEq, Repr

structure Member where
  displayName : Option String
  email : Option String
deriving DecidableEq, Repr

structure Participant where
  displayName : String
  email : String
deriving DecidableEq, Repr

/-- A response of the messages endpoint: HTTP status, raw body bytes, the
parsed `value` array and `@odata.nextLink` field, and the observed fetch
time; `exn` models a raised request exception (caught by the source). -/
inductive Fetch where
  | resp (status : Nat) (content : List Nat) (value : Option (List Msg))
      (nextLink : Option String) (fetchTime : String)
  | exn (e : String)
deriving DecidableEq, Repr

/-- A response of a membership endpoint, with the `value` and `members`
arrays the source inspects. -/
inductive MembersFetch where
  | resp (status : Nat) (value : Option (List Member)) (mems : Option (List Member))
  | exn (e : String)
deriving DecidableEq, Repr

/-! ### Participant resolution -/

/-- The truthiness test `display_name and display_name.strip()` of the
source. -/
def keepName (dn : String) : Bool := (!dn.isEmpty) && (!(pyStrip dn).isEmpty)

/-- One member record turned into a participant entry, as in both loops of
`get_chat_participants`. -/
def memberParticipant (m : Member) : Option Participant :=
  let dn := m.displayName.getD ""
  if keepName dn then some ⟨dn, m.email.getD ""⟩ else none

/-- Participant extraction from a 200 membership response: the `value`
array if present, else the `members` array, else nothing. -/
def extractMembers (value mems : Option (List Member)) : List Participant :=
  match value with
  | some ms => ms.filterMap memberParticipant
  | none =>
    match mems with
    | some ms => ms.filterMap memberParticipant
    | none => []

/-- The sender display name a message contributes in
`extract_participants_from_messages`, if any. -/
def senderName (m : Msg) : Option String :=
  match m.fromField with
  | none => none
  | some fi =>
    match fi.user with
    | none => none
    | some u =>
      let dn := u.displayName.getD ""
      if keepName dn then some dn else none

/-- Set insertion, modelling `participants.add(display_name)`. -/
def addDistinct (acc : List String) (n : String) : List String :=
  if n ∈ acc then acc else acc ++ [n]

/-- One iteration of the sender-collection loop. -/
def senderFold (acc : List String) (m : Msg) : List String :=
  match senderName m with
  | some n => addDistinct acc n
  | none => acc

/-- The distinct non-empty sender names of a message array. -/
def collectSenders (msgs : List Msg) : List String :=
  msgs.foldl senderFold []

/-- Embedding of `extract_participants_from_messages`
(src/teams_exporter.py lines 108-147). -/
def extract_participants_from_messages (f : Fetch) : List Participant :=
  match f with
  | .exn _ => []
  | .resp status _ value _ _ =>
    if status = 200 then
      let names := collectSenders (value.getD [])
      if names.isEmpty then [] else names.map (fun n => ⟨n, "From messages"⟩)
    else []

/-- The endpoints `get_chat_participants` may call, in call order. -/
inductive Endpoint where
  | membersApi
  | expandApi
  | messagesScan
deriving DecidableEq, Repr

/-- The environment of a participant-resolution run: the responses the
three endpoints would give. -/
structure PartEnv where
  membersResp : MembersFetch
  expandResp : MembersFetch
  msgsResp : Fetch
deriving DecidableEq, Repr

structure PartResult where
  participants : List Participant
  calls : List Endpoint
deriving DecidableEq, Repr

/-- Outcome of one iteration of the approaches loop in
`get_chat_participants`: return a non-empty list, `break` (on 401), or
fall through to the next approach. -/
inductive TryOut where
  | success (ps : List Participant)
  | breakLoop
  | continueLoop
deriving DecidableEq, Repr

def tryApproachOne : MembersFetch → TryOut
  | .exn _ => .continueLoop
  | .resp status value mems =>
    if status = 200 then
      let ps := extractMembers value mems
      if ps.isEmpty then .continueLoop else .success ps
    else if status = 401 then .breakLoop
    else .continueLoop

/-- Embedding of `get_chat_participants` (src/teams_exporter.py lines
149-207).  The loop tries the members endpoint then the expand endpoint; a
401 breaks out of the loop; after the loop the code always falls through
to `extract_participants_from_messages`.  `calls` records the requests
issued. -/
def get_chat_participants (env : PartEnv) : PartResult :=
  match tryApproachOne env.membersResp with
  | .success ps => ⟨ps, [.membersApi]⟩
  | .breakLoop =>
    ⟨extract_participants_from_messages env.msgsResp, [.membersApi, .messagesScan]⟩
  | .continueLoop =>
    match tryApproachOne env.expandResp with
    | .success ps => ⟨ps, [.membersApi, .expandApi]⟩
    | _ =>
      ⟨extract_participants_from_messages env.msgsResp,
       [.membersApi, .expandApi, .messagesScan]⟩

/-! ### Paginated collection and the custody ledger -/

structure PageHash where
  page : Nat
  url : String
  timestamp : String
  status_code : Nat
  response_hash : String
  messages_count : Nat
deriving DecidableEq, Repr

/-- The mutable accumulation of the export loop. -/
structure LoopState where
  all_messages : List Msg
  page_hashes : List PageHash
  page : Nat
deriving DecidableEq, Repr

/-- How the pagination loop terminated, mirroring the source's `break`
sites and their diagnostics. -/
inductive TermCause where
  | normalEnd
  | unauthorized
  | httpError (status : Nat)
  | requestError (e : String)
  | outOfResponses
deriving DecidableEq, Repr

def baseMessagesUrl (chat_id : String) : String :=
  "https://graph.microsoft.com/v1.0/chats/" ++ chat_id ++ "/messages?$top=50"

/-- Embedding of the `while True` pagination loop of `export_messages`
(src/teams_exporter.py lines 263-315), consuming one environment response
per request.  `outOfResponses` marks the (never specified) case of an
environment shorter than the pagination chain. -/
def collectLoop (chat_id : String) :
    List Fetch → Option String → LoopState → LoopState × TermCause
  | [], _, st => (st, .outOfResponses)
  | f :: rest, next_link, st =>
    let url := next_link.getD (baseMessagesUrl chat_id)
    match f with
    | .exn e => (st, .requestError e)
    | .resp status content value nl t =>
      if status = 200 then
        let ph : PageHash :=
          { page := st.page, url := url, timestamp := t, status_code := status,
            response_hash := sha256hexBytes content,
            messages_count := (value.getD []).length }
        let st' : LoopState :=
          { all_messages := st.all_messages ++ value.getD [],
            page_hashes := st.page_hashes ++ [ph],
            page := st.page }
        match nl with
        | some link => collectLoop chat_id rest (some link) { st' with page := st'.page + 1 }
        | none => (st', .normalEnd)
      else if status = 401 then (st, .unauthorized)
      else (st, .httpError status)

structure SessionMetadata where
  chat_id : String
  export_timestamp : String
  api_endpoint : String
  token_scope : String
  user_agent : String
  export_method : String
deriving DecidableEq, Repr

def mkSessionMetadata (chat_id export_timestamp : String) : SessionMetadata :=
  { chat_id := chat_id
    export_timestamp := export_timestamp
    api_endpoint := "/chats/" ++ chat_id ++ "/messages"
    token_scope := "Chat.Read"
    user_agent := "Microsoft Graph API"
    export_method := "Microsoft Graph API v1.0" }

/-- Embedding of `"".join(list)`. -/
def joinStr (l : List String) : String := l.foldl (fun a b => a ++ b) ""

/-- The master hash of src/teams_exporter.py lines 330-332: SHA-256 of the
undelimited concatenation of the page digests, in page order. -/
def masterHashOf (phs : List PageHash) : String :=
  sha256OfString (joinStr (phs.map PageHash.response_hash))

/-- The `peritaje_info` chain-of-custody record. -/
structure Custody where
  page_hashes : List PageHash
  session_metadata : SessionMetadata
  total_messages : Nat
  total_pages : Nat
  export_completion_time : String
  master_hash : String
deriving DecidableEq, Repr

/-- Embedding of the chain-of-custody construction of `export_messages`
(src/teams_exporter.py lines 317-332). -/
def buildCustody (meta : SessionMetadata) (completionTime : String) (st : LoopState) : Custody :=
  { page_hashes := st.page_hashes
    session_metadata := meta
    total_messages := st.all_messages.length
    total_pages := st.page
    export_completion_time := completionTime
    master_hash := masterHashOf st.page_hashes }

/-- The triple returned by `export_messages`, with the termination cause
of the loop (carrying the printed diagnostic) alongside.  `file` is the
message array written to the JSON export file, when one is written. -/
structure ExportResult where
  file : Option (List Msg)
  custody : Option Custody
  participant_names : Option (List String)
  cause : TermCause
deriving DecidableEq, Repr

/-- Embedding of `export_messages` (src/teams_exporter.py lines 209-360).
The clock readings and the HTTP environments are parameters. -/
def export_messages (chat_id : String) (penv : PartEnv)
    (exportTime completionTime : String) (fetches : List Fetch) : ExportResult :=
  let participants := (get_chat_participants penv).participants
  let participant_names :=
    if participants.isEmpty then ["Unknown Participants"]
    else participants.map Participant.displayName
  let meta := mkSessionMetadata chat_id exportTime
  let (st, cause) := collectLoop chat_id fetches none ⟨[], [], 1⟩
  let custody := buildCustody meta completionTime st
  if st.all_messages.isEmpty then
    { file := none, custody := none, participant_names := none, cause := cause }
  else
    { file := some st.all_messages, custody := some custody,
      participant_names := some participant_names, cause := cause }

/-- What `main` does with the export result (src/teams_exporter.py lines
660-664): a `None` file path is reported as a failed export. -/
inductive MainStep where
  | exportFailed
  | proceedToPdf
deriving DecidableEq, Repr

def mainAfterExport (r : ExportResult) : MainStep :=
  if r.file.isSome then .proceedToPdf else .exportFailed

/-! ### Document rendering -/

/-- The language-bundle strings `convert_json_to_pdf` reads (the `from`
key is named `fromLabel`). -/
structure Texts where
  document_title : String
  document_subtitle : String
  export_date : String
  original_file : String
  total_messages : String
  conversation_with : String
  message : String
  fromLabel : String
  content : String
  unidentified_user : String
  unknown_user : String
deriving DecidableEq, Repr

/-- Embedding of the `info_data` metadata table of `convert_json_to_pdf`
(src/teams_exporter.py lines 506-514). -/
def buildInfoData (texts : Texts) (exportDateStr jsonFileName : String)
    (data : List Msg) (participant_names : List String) : List (List String) :=
  let participants_text :=
    if participant_names.isEmpty then "Unknown Participants"
    else String.intercalate ", " participant_names
  [[texts.export_date, exportDateStr],
   [texts.original_file, jsonFileName],
   [texts.total_messages, toString data.length],
   [texts.conversation_with, participants_text]]

/-- One message as laid out in the message list of the report. -/
structure RenderedMsg where
  index : Nat
  dateShown : String
  senderShown : String
  contentShown : String
deriving DecidableEq, Repr

/-- Embedding of one iteration of the message loop of
`convert_json_to_pdf` (src/teams_exporter.py lines 576-607). -/
def renderMessage (texts : Texts) (i : Nat) (m : Msg) : RenderedMsg :=
  let created_date := m.createdDateTime.getD ""
  let from_user :=
    match m.fromField with
    | none => texts.unidentified_user
    | some fi =>
      match fi.user with
      | none => texts.unknown_user
      | some u => u.displayName.getD texts.unknown_user
  let body_content :=
    match m.body with
    | none => ""
    | some b => b.content.getD ""
  { index := i
    dateShown := formatDate created_date
    senderShown := from_user
    contentShown := clean_html_content (some body_content) }

/-- The printable report, by section. -/
structure Report where
  title : String
  subtitle : String
  infoTable : List (List String)
  custodySection : Option Custody
  renderedMessages : List RenderedMsg
deriving DecidableEq, Repr

/-- Embedding of `convert_json_to_pdf` (src/teams_exporter.py lines
457-632): the document structure built from the loaded JSON array. -/
def convert_json_to_pdf (texts : Texts) (exportDateStr jsonFileName : String)
    (data : List Msg) (chain_of_custody : Option Custody)
    (participant_names : List String) : Report :=
  { title := texts.document_title
    subtitle := texts.document_subtitle
    infoTable := buildInfoData texts exportDateStr jsonFileName data participant_names
    custodySection := chain_of_custody
    renderedMessages := data.enum.map (fun p => renderMessage texts (p.1 + 1) p.2) }

/-! ### Supporting lemmas -/

theorem foldl_append_data (l : List String) :
    ∀ a : String, (l.foldl (fun x y => x ++ y) a).data = a.data ++ (l.map String.data).flatten := by
  induction l with
  | nil => intro a; simp
  | cons x xs ih => intro a; simp [ih, String.data_append]

theorem joinStr_data (l : List String) : (joinStr l).data = (l.map String.data).flatten := by
  simpa [joinStr] using foldl_append_data l ""

/-- Undelimited concatenation of fixed-length blocks is injective: with
every block of the same positive length `n`, equal concatenations force
equal block sequences. -/
theorem flatten_fixed_inj {n : Nat} (hn : 0 < n) :
    ∀ xs ys : List (List Char), (∀ x ∈ xs, x.length = n) → (∀ y ∈ ys, y.length = n) →
      xs.flatten = ys.flatten → xs = ys := by
  intro xs
  induction xs with
  | nil =>
    intro ys _ hy h
    cases ys with
    | nil => rfl
    | cons y ys =>
      exfalso
      simp only [List.flatten_nil, List.flatten_cons] at h
      have hy0 : y.length = n := hy y (by simp)
      have hy1 : y = [] := by
        rcases List.append_eq_nil.mp h.symm with ⟨h1, _⟩
        exact h1
      subst hy1
      simp at hy0
      omega
  | cons x xs ih =>
    intro ys hx hy h
    cases ys with
    | nil =>
      exfalso
      simp only [List.flatten_cons, List.flatten_nil] at h
      have hx0 : x.length = n := hx x (by simp)
      rcases List.append_eq_nil.mp h with ⟨h1, _⟩
      subst h1
      simp at hx0
      omega
    | cons y ys =>
      simp only [List.flatten_cons] at h
      have hxy : x.length = y.length := by
        rw [hx x (by simp), hy y (by simp)]
      obtain ⟨h1, h2⟩ := List.append_inj h hxy
      have h3 := ih ys (fun a ha => hx a (by simp [ha])) (fun b hb => hy b (by simp [hb])) h2
      rw [h1, h3]

/-- A list differs from the result of swapping two of its positions that
hold distinct entries. -/
theorem set_swap_ne (d : List String) (i j : Nat) (hi : i < d.length) (hj : j < d.length)
    (hij : i ≠ j) (hne : d.get ⟨i, hi⟩ ≠ d.get ⟨j, hj⟩) :
    d ≠ (d.set i (d.get ⟨j, hj⟩)).set j (d.get ⟨i, hi⟩) := by
  intro he
  have h1 : d[i]? = some (d.get ⟨i, hi⟩) := by
    simp [List.getElem?_eq_getElem hi]
  have h2 : ((d.set i (d.get ⟨j, hj⟩)).set j (d.get ⟨i, hi⟩))[i]? = some (d.get ⟨j, hj⟩) := by
    rw [List.getElem?_set_ne (Ne.symm hij)]
    rw [List.getElem?_set_self hi]
  rw [← he, h1] at h2
  exact hne (Option.some.inj h2)

/-- Every digest produced by the embedded SHA-256 is 64 hex characters,
justifying the fixed-length hypothesis on page digests. -/
theorem length_sha256hexBytes (msg : List Nat) : (sha256hexBytes msg).length = 64 := by
  simp [sha256hexBytes, sha256Words, toHex8, String.length]

/-! ### Claim C1: the custody master hash -/

/-- Claim C1.  First conjunct: the master hash stored in the custody
ledger is the SHA-256 digest of the undelimited concatenation, in page
order, of the per-page hex digests.  Second conjunct: swapping two pages
whose digests differ (all digests being 64 characters, as SHA-256 hex
digests are) changes the concatenation, and therefore — under the
collision-freeness hypothesis `hcol` for this particular pair of
concatenations, which is what "SHA-256 digests differ" means for a hash
function — changes the master hash. -/
theorem master_hash_spec :
    (∀ (meta : SessionMetadata) (ct : String) (st : LoopState),
        (buildCustody meta ct st).master_hash
          = sha256OfString (joinStr (st.page_hashes.map PageHash.response_hash)))
    ∧
    (∀ (l1 l2 : List PageHash) (i j : Nat) (hi : i < l1.length) (hj : j < l1.length),
        i ≠ j →
        (∀ ph ∈ l1, ph.response_hash.length = 64) →
        (l1.get ⟨i, hi⟩).response_hash ≠ (l1.get ⟨j, hj⟩).response_hash →
        l2 = (l1.set i (l1.get ⟨j, hj⟩)).set j (l1.get ⟨i, hi⟩) →
        (sha256OfString (joinStr (l1.map PageHash.response_hash))
            = sha256OfString (joinStr (l2.map PageHash.response_hash))
          → joinStr (l1.map PageHash.response_hash) = joinStr (l2.map PageHash.response_hash)) →
        masterHashOf l1 ≠ masterHashOf l2) := by
  constructor
  · intro meta ct st
    rfl
  · intro l1 l2 i j hi hj hij h64 hne hl2 hcol hmaster
    have hjoin := hcol (by simpa [masterHashOf] using hmaster)
    have h64r : ∀ ph ∈ l2, ph.response_hash.length = 64 := by
      intro ph hph
      rw [hl2] at hph
      rcases List.mem_or_eq_of_mem_set hph with h' | h'
      · rcases List.mem_or_eq_of_mem_set h' with h'' | h''
        · exact h64 _ h''
        · exact h'' ▸ h64 _ (l1.get_mem _ _)
      · exact h' ▸ h64 _ (l1.get_mem _ _)
    have hdata : ((l1.map PageHash.response_hash).map String.data).flatten
        = ((l2.map PageHash.response_hash).map String.data).flatten := by
      have h := congrArg String.data hjoin
      rw [joinStr_data, joinStr_data] at h
      exact h
    have hlen1 : ∀ x ∈ (l1.map PageHash.response_hash).map String.data, x.length = 64 := by
      intro x hx
      simp only [List.map_map, List.mem_map, Function.comp] at hx
      obtain ⟨ph, hph, rfl⟩ := hx
      exact h64 ph hph
    have hlen2 : ∀ x ∈ (l2.map PageHash.response_hash).map String.data, x.length = 64 := by
      intro x hx
      simp only [List.map_map, List.mem_map, Function.comp] at hx
      obtain ⟨ph, hph, rfl⟩ := hx
      exact h64r ph hph
    have hmaps : (l1.map PageHash.response_hash).map String.data
        = (l2.map PageHash.response_hash).map String.data :=
      flatten_fixed_inj (n := 64) (by norm_num) _ _ hlen1 hlen2 hdata
    have hinj : Function.Injective String.data := fun a b hab => String.ext hab
    have hstr : l1.map PageHash.response_hash = l2.map PageHash.response_hash :=
      (List.map_injective_iff.mpr hinj) hmaps
    have hd2eq : l2.map PageHash.response_hash
        = ((l1.map PageHash.response_hash).set i
             ((l1.map PageHash.response_hash).get ⟨j, by simpa using hj⟩)).set j
             ((l1.map PageHash.response_hash).get ⟨i, by simpa using hi⟩) := by
      rw [hl2]
      simp [List.map_set]
    exact set_swap_ne (l1.map PageHash.response_hash) i j (by simpa using hi)
      (by simpa using hj) hij (by simpa using hne) (hstr.trans hd2eq)

/-- A 64-character digest used by the concrete witness of C1. -/
def digestA : String := "aaaaaaaaaaaaaaaaaaaaaaaaaaaaaaaaaaaaaaaaaaaaaaaaaaaaaaaaaaaaaaaa"

/-- Another 64-character digest used by the concrete witness of C1. -/
def digestB : String := "bbbbbbbbbbbbbbbbbbbbbbbbbbbbbbbbbbbbbbbbbbbbbbbbbbbbbbbbbbbbbbbb"

def phWitA : PageHash := ⟨1, "u1", "t1", 200, digestA, 1⟩

def phWitB : PageHash := ⟨2, "u2", "t2", 200, digestB, 0⟩

set_option maxRecDepth 1000000 in
/-- Witness for C1 at a concrete input: the collision-freeness hypothesis
is discharged by computing both SHA-256 digests. -/
theorem master_hash_spec_witness : masterHashOf [phWitA, phWitB] ≠ masterHashOf [phWitB, phWitA] :=
  master_hash_spec.2 [phWitA, phWitB] [phWitB, phWitA] 0 1 (by decide) (by decide)
    (by decide) (by decide) (by decide) (by decide)
    (fun h => absurd h (by decide))

/-! ### Collector lemmas -/

/-- A 200 page response carrying a continuation link: the shape of every
page before the last (or before a failure) in a pagination chain. -/
def Next200 (f : Fetch) : Prop := ∃ c v l t, f = Fetch.resp 200 c v (some l) t

/-- The messages a page response contributes to the flat list. -/
def pageMsgs : Fetch → List Msg
  | .resp _ _ v _ _ => v.getD []
  | .exn _ => []

/-- The flattened messages of a sequence of page responses. -/
def pagesMsgs (l : List Fetch) : List Msg := (l.map pageMsgs).flatten

/-- One unfolding step of the loop on a 200 page with a continuation
link. -/
theorem collectLoop_cons_200 (cid : String) (c : List Nat) (v : Option (List Msg))
    (link t : String) (rest : List Fetch) (nl : Option String) (st : LoopState) :
    collectLoop cid (Fetch.resp 200 c v (some link) t :: rest) nl st
      = collectLoop cid rest (some link)
          ⟨st.all_messages ++ v.getD [],
           st.page_hashes
             ++ [⟨st.page, nl.getD (baseMessagesUrl cid), t, 200, sha256hexBytes c,
                  (v.getD []).length⟩],
           st.page + 1⟩ := by
  simp [collectLoop]

/-- Processing a chain of 200-with-link pages extends the accumulated
messages by exactly those pages' message arrays and advances the page
counter by their number. -/
theorem collectLoop_append_front (cid : String) :
    ∀ (pre : List Fetch), (∀ f ∈ pre, Next200 f) →
      ∀ (l : List Fetch) (nl : Option String) (st : LoopState),
        ∃ (nl' : Option String) (phs : List PageHash),
          collectLoop cid (pre ++ l) nl st
            = collectLoop cid l nl'
                ⟨st.all_messages ++ pagesMsgs pre, st.page_hashes ++ phs,
                 st.page + pre.length⟩ := by
  intro pre
  induction pre with
  | nil =>
    intro _ l nl st
    exact ⟨nl, [], by simp [pagesMsgs]⟩
  | cons f fs ih =>
    intro hpre l nl st
    obtain ⟨c, v, link, t, rfl⟩ := hpre f (by simp)
    rw [List.cons_append, collectLoop_cons_200]
    obtain ⟨nl', phs, heq⟩ := ih (fun g hg => hpre g (by simp [hg])) l (some link)
      ⟨st.all_messages ++ v.getD [],
       st.page_hashes
         ++ [⟨st.page, nl.getD (baseMessagesUrl cid), t, 200, sha256hexBytes c,
              (v.getD []).length⟩],
       st.page + 1⟩
    refine ⟨nl',
      ⟨st.page, nl.getD (baseMessagesUrl cid), t, 200, sha256hexBytes c,
       (v.getD []).length⟩ :: phs, ?_⟩
    rw [heq]
    congr 1
    simp [pagesMsgs, pageMsgs, List.append_assoc]
    omega

/-- Invariant of the loop: the number of accumulated messages equals the
sum of the recorded per-page message counts. -/
theorem collectLoop_count (cid : String) :
    ∀ (l : List Fetch) (nl : Option String) (st : LoopState),
      st.all_messages.length = (st.page_hashes.map PageHash.messages_count).sum →
      (collectLoop cid l nl st).1.all_messages.length
        = ((collectLoop cid l nl st).1.page_hashes.map PageHash.messages_count).sum := by
  intro l
  induction l with
  | nil => intro nl st h; simpa [collectLoop] using h
  | cons f rest ih =>
    intro nl st h
    match f with
    | .exn e => simpa [collectLoop] using h
    | .resp status c v nlk t =>
      by_cases h200 : status = 200
      · subst h200
        cases nlk with
        | some link =>
          rw [collectLoop_cons_200]
          apply ih
          simp [h]
        | none => simp [collectLoop, h]
      · by_cases h401 : status = 401
        · subst h401
          simpa [collectLoop] using h
        · simpa [collectLoop, h200, h401] using h

/-! ### Claims C2, C5, C8, C10: behaviour of the export run -/

/-- A message used by the concrete witnesses. -/
def msgWit : Msg :=
  ⟨some "m1", some "2024-01-15T10:30:00Z", some ⟨some ⟨some "Alice"⟩⟩, some ⟨some "Hello"⟩⟩

/-- A participant environment in which both membership endpoints return
403, used by the concrete witnesses. -/
def penvWit : PartEnv :=
  ⟨.resp 403 none none, .resp 403 none none, .resp 200 [] (some []) none "tt"⟩

/-- First page of the witness runs: 200 with one message and a
continuation link. -/
def pageWit1 : Fetch := Fetch.resp 200 [] (some [msgWit]) (some "next1") "ts1"

set_option maxRecDepth 100000 in
/-- Counterexample to claim C2 as stated: a run whose first page succeeds
with one message and whose second page returns HTTP 500 aborts with the
diagnostic, yet the JSON export file IS written and contains the message
collected before the failing page — partial results are not discarded. -/
theorem export_partial_not_discarded :
    (export_messages "chat" penvWit "t0" "t1"
        [pageWit1, Fetch.resp 500 [] none none "ts2"]).cause = TermCause.httpError 500
    ∧ (export_messages "chat" penvWit "t0" "t1"
        [pageWit1, Fetch.resp 500 [] none none "ts2"]).file = some [msgWit] := by
  decide

/-- Claim C2 as amended: on a page with a status other than 200 and 401
the collector aborts with the `httpError` diagnostic, but the partial
results are kept, not discarded: the JSON export file is written with
exactly the messages collected before the failing page whenever at least
one message was collected (and only a run with zero collected messages
writes no file). -/
theorem export_http_error_keeps_partial (cid : String) (penv : PartEnv) (t0 t1 : String)
    (pre : List Fetch) (hpre : ∀ f ∈ pre, Next200 f)
    (status : Nat) (h200 : status ≠ 200) (h401 : status ≠ 401)
    (content : List Nat) (value : Option (List Msg)) (nl : Option String) (ft : String)
    (rest : List Fetch) :
    (export_messages cid penv t0 t1
        (pre ++ Fetch.resp status content value nl ft :: rest)).cause
      = TermCause.httpError status
    ∧ (export_messages cid penv t0 t1
        (pre ++ Fetch.resp status content value nl ft :: rest)).file
      = if (pagesMsgs pre).isEmpty then none else some (pagesMsgs pre) := by
  obtain ⟨nl', phs, heq⟩ := collectLoop_append_front cid pre hpre
    (Fetch.resp status content value nl ft :: rest) none ⟨[], [], 1⟩
  have hstep : collectLoop cid (Fetch.resp status content value nl ft :: rest) nl'
      ⟨[] ++ pagesMsgs pre, [] ++ phs, 1 + pre.length⟩
      = (⟨[] ++ pagesMsgs pre, [] ++ phs, 1 + pre.length⟩, TermCause.httpError status) := by
    simp [collectLoop, h200, h401]
  rw [export_messages]
  simp only [heq, hstep]
  by_cases hempty : (pagesMsgs pre).isEmpty
  · simp [hempty]
  · simp [hempty]

set_option maxRecDepth 100000 in
/-- Witness for the amended C2 at a concrete input. -/
theorem export_http_error_keeps_partial_witness :
    (export_messages "chat" penvWit "t0" "t1"
        ([pageWit1] ++ Fetch.resp 502 [] none none "ts2" :: [])).cause
      = TermCause.httpError 502
    ∧ (export_messages "chat" penvWit "t0" "t1"
        ([pageWit1] ++ Fetch.resp 502 [] none none "ts2" :: [])).file
      = if (pagesMsgs [pageWit1]).isEmpty then none else some (pagesMsgs [pageWit1]) :=
  export_http_error_keeps_partial "chat" penvWit "t0" "t1" [pageWit1]
    (by intro f hf
        simp only [List.mem_singleton] at hf
        exact hf ▸ ⟨[], some [msgWit], "next1", "ts1", rfl⟩)
    502 (by decide) (by decide) [] none none "ts2" []

/-- Claim C8: a 401 on the very first page fetch yields zero exported
messages and the distinguishable credential-invalid outcome — no export
file, no custody ledger, no participant list, termination cause
`unauthorized` (the printed "Token expired or invalid" diagnostic); the
embedded run is total, mirroring that the source breaks out of the loop
rather than raising. -/
theorem export_first_page_401 (cid : String) (penv : PartEnv) (t0 t1 : String)
    (content : List Nat) (value : Option (List Msg)) (nl : Option String) (ft : String)
    (rest : List Fetch) :
    (export_messages cid penv t0 t1 (Fetch.resp 401 content value nl ft :: rest)).file = none
    ∧ (export_messages cid penv t0 t1 (Fetch.resp 401 content value nl ft :: rest)).custody
        = none
    ∧ (export_messages cid penv t0 t1
        (Fetch.resp 401 content value nl ft :: rest)).participant_names = none
    ∧ (export_messages cid penv t0 t1 (Fetch.resp 401 content value nl ft :: rest)).cause
        = TermCause.unauthorized := by
  rw [export_messages]
  simp [collectLoop]

/-- Claim C10: whenever the pagination loop ends with zero accumulated
messages — in particular on an all-200 run whose pages are empty — the
export writes no JSON file and returns the triple `(None, None, None)`,
dropping the custody ledger and participant names it built, and `main`
reports the export as failed. -/
theorem export_empty_returns_none (cid : String) (penv : PartEnv) (t0 t1 : String)
    (fetches : List Fetch)
    (h : (collectLoop cid fetches none ⟨[], [], 1⟩).1.all_messages = []) :
    (export_messages cid penv t0 t1 fetches).file = none
    ∧ (export_messages cid penv t0 t1 fetches).custody = none
    ∧ (export_messages cid penv t0 t1 fetches).participant_names = none
    ∧ mainAfterExport (export_messages cid penv t0 t1 fetches) = MainStep.exportFailed := by
  rw [export_messages]
  simp [h, mainAfterExport, export_messages]

set_option maxRecDepth 100000 in
/-- Witness for C10: a single 200 page with an empty message array and no
continuation link. -/
theorem export_empty_returns_none_witness :
    (export_messages "chat" penvWit "t0" "t1"
        [Fetch.resp 200 [] (some []) none "ts"]).file = none
    ∧ (export_messages "chat" penvWit "t0" "t1"
        [Fetch.resp 200 [] (some []) none "ts"]).custody = none
    ∧ (export_messages "chat" penvWit "t0" "t1"
        [Fetch.resp 200 [] (some []) none "ts"]).participant_names = none
    ∧ mainAfterExport (export_messages "chat" penvWit "t0" "t1"
        [Fetch.resp 200 [] (some []) none "ts"]) = MainStep.exportFailed :=
  export_empty_returns_none "chat" penvWit "t0" "t1"
    [Fetch.resp 200 [] (some []) none "ts"] (by decide)

/-- Claim C5: a run whose pages all return HTTP 200 — empty message
arrays allowed — terminates normally when the continuation link is
absent, and the total message count recorded in the custody ledger equals
the sum of the per-page message counts of its page hash records. -/
theorem export_all200_totals (cid : String) (body : List Fetch)
    (hbody : ∀ f ∈ body, Next200 f)
    (content : List Nat) (value : Option (List Msg)) (ft : String)
    (meta : SessionMetadata) (ct : String) :
    (collectLoop cid (body ++ [Fetch.resp 200 content value none ft]) none ⟨[], [], 1⟩).2
      = TermCause.normalEnd
    ∧ (buildCustody meta ct
        (collectLoop cid (body ++ [Fetch.resp 200 content value none ft]) none
          ⟨[], [], 1⟩).1).total_messages
      = ((buildCustody meta ct
          (collectLoop cid (body ++ [Fetch.resp 200 content value none ft]) none
            ⟨[], [], 1⟩).1).page_hashes.map PageHash.messages_count).sum := by
  constructor
  · obtain ⟨nl', phs, heq⟩ := collectLoop_append_front cid body hbody
      [Fetch.resp 200 content value none ft] none ⟨[], [], 1⟩
    rw [heq]
    simp [collectLoop]
  · exact collectLoop_count cid _ none ⟨[], [], 1⟩ (by simp)

set_option maxRecDepth 100000 in
/-- Witness for C5: a two-page all-200 run whose second page is empty. -/
theorem export_all200_totals_witness :
    (collectLoop "chat" ([pageWit1] ++ [Fetch.resp 200 [] (some []) none "ts2"]) none
        ⟨[], [], 1⟩).2 = TermCause.normalEnd
    ∧ (buildCustody (mkSessionMetadata "chat" "t0") "t1"
        (collectLoop "chat" ([pageWit1] ++ [Fetch.resp 200 [] (some []) none "ts2"]) none
          ⟨[], [], 1⟩).1).total_messages
      = ((buildCustody (mkSessionMetadata "chat" "t0") "t1"
          (collectLoop "chat" ([pageWit1] ++ [Fetch.resp 200 [] (some []) none "ts2"]) none
            ⟨[], [], 1⟩).1).page_hashes.map PageHash.messages_count).sum :=
  export_all200_totals "chat" [pageWit1]
    (by intro f hf
        simp only [List.mem_singleton] at hf
        exact hf ▸ ⟨[], some [msgWit], "next1", "ts1", rfl⟩)
    [] (some []) "ts2" (mkSessionMetadata "chat" "t0") "t1"

/-! ### Claims C3 and C4: participant resolution -/

/-- The participant environment of the C3 counterexample: the first
membership endpoint answers 401, and the message scan would find
"Alice". -/
def penvC3 : PartEnv :=
  ⟨.resp 401 none none, .resp 403 none none, .resp 200 [] (some [msgWit]) none "tt"⟩

/-- Counterexample to claim C3 as stated: after a 401 from a membership
endpoint the resolver does NOT stop at "credential invalid" — it still
falls back to scanning messages for sender names (and here returns the
sender it finds there). -/
theorem resolver_401_falls_back :
    Endpoint.messagesScan ∈ (get_chat_participants penvC3).calls
    ∧ (get_chat_participants penvC3).participants = [⟨"Alice", "From messages"⟩] := by
  decide

/-- Claim C3 as amended: a 401 from the first membership endpoint makes
the resolver abandon the remaining membership endpoint (the expand
endpoint is never queried), but it still falls back to scanning messages;
its result is exactly the message-scan result. -/
theorem resolver_401_skips_expand (env : PartEnv) (v m : Option (List Member))
    (h : env.membersResp = MembersFetch.resp 401 v m) :
    (get_chat_participants env).calls = [Endpoint.membersApi, Endpoint.messagesScan]
    ∧ (get_chat_participants env).participants
        = extract_participants_from_messages env.msgsResp := by
  simp [get_chat_participants, h, tryApproachOne]

/-- Witness for the amended C3 at a concrete input. -/
theorem resolver_401_skips_expand_witness :
    (get_chat_participants penvC3).calls = [Endpoint.membersApi, Endpoint.messagesScan]
    ∧ (get_chat_participants penvC3).participants
        = extract_participants_from_messages penvC3.msgsResp :=
  resolver_401_skips_expand penvC3 none none rfl

/-- With both membership endpoints answering non-200, the resolver's
participants are exactly the message-scan fallback's. -/
theorem participants_fallback (env : PartEnv)
    (s1 : Nat) (v1 m1 : Option (List Member)) (h1 : env.membersResp = MembersFetch.resp s1 v1 m1)
    (s2 : Nat) (v2 m2 : Option (List Member)) (h2 : env.expandResp = MembersFetch.resp s2 v2 m2)
    (hs1 : s1 ≠ 200) (hs2 : s2 ≠ 200) :
    (get_chat_participants env).participants
      = extract_participants_from_messages env.msgsResp := by
  by_cases hb1 : s1 = 401
  · simp [get_chat_participants, h1, tryApproachOne, hs1, hb1]
  · by_cases hb2 : s2 = 401
    · simp [get_chat_participants, h1, h2, tryApproachOne, hs1, hs2, hb1, hb2]
    · simp [get_chat_participants, h1, h2, tryApproachOne, hs1, hs2, hb1, hb2]

/-- Folding further messages whose only non-empty sender name is "Alice"
leaves the accumulator `["Alice"]` unchanged. -/
theorem senderFold_alice_absorb :
    ∀ (msgs : List Msg),
      (∀ m ∈ msgs, senderName m = none ∨ senderName m = some "Alice") →
      msgs.foldl senderFold ["Alice"] = ["Alice"] := by
  intro msgs
  induction msgs with
  | nil => intro _; rfl
  | cons m ms ih =>
    intro hall
    rcases hall m (by simp) with h | h
    · rw [List.foldl_cons]
      rw [show senderFold ["Alice"] m = ["Alice"] from by simp [senderFold, h]]
      exact ih (fun x hx => hall x (by simp [hx]))
    · rw [List.foldl_cons]
      rw [show senderFold ["Alice"] m = ["Alice"] from by simp [senderFold, h, addDistinct]]
      exact ih (fun x hx => hall x (by simp [hx]))

/-- If all messages' sender names are absent or "Alice", and at least one
is "Alice", the collected distinct names are exactly `["Alice"]`. -/
theorem collectSenders_single_alice :
    ∀ (msgs : List Msg),
      (∀ m ∈ msgs, senderName m = none ∨ senderName m = some "Alice") →
      (∃ m ∈ msgs, senderName m = some "Alice") →
      collectSenders msgs = ["Alice"] := by
  intro msgs
  induction msgs with
  | nil =>
    intro _ hone
    rcases hone with ⟨m, hm, _⟩
    simp at hm
  | cons m ms ih =>
    intro hall hone
    rcases hall m (by simp) with h | h
    · have hone' : ∃ x ∈ ms, senderName x = some "Alice" := by
        rcases hone with ⟨x, hx, hsx⟩
        rcases List.mem_cons.mp hx with rfl | hx'
        · rw [h] at hsx; cases hsx
        · exact ⟨x, hx', hsx⟩
      have := ih (fun x hx => hall x (by simp [hx])) hone'
      rw [collectSenders] at this ⊢
      rw [List.foldl_cons]
      rw [show senderFold [] m = [] from by simp [senderFold, h]]
      exact this
    · rw [collectSenders, List.foldl_cons]
      rw [show senderFold [] m = ["Alice"] from by simp [senderFold, h, addDistinct]]
      exact senderFold_alice_absorb ms (fun x hx => hall x (by simp [hx]))

/-- The participant environment of the C4 counterexample and witness:
both membership endpoints fail with non-200 statuses, and the scanned
messages carry the single distinct sender name "Alice", repeated. -/
def penvC4 : PartEnv :=
  ⟨.resp 403 none none, .resp 404 none none,
   .resp 200 []
     (some [msgWit, ⟨some "m3", none, none, none⟩,
            ⟨some "m2", none, some ⟨some ⟨some "Alice"⟩⟩, none⟩])
     none "tt"⟩

/-- Counterexample to claim C4 as stated: the fallback participant's email
field holds the placeholder "From messages", not the literal "unknown". -/
theorem fallback_email_not_unknown :
    (get_chat_participants penvC4).participants = [⟨"Alice", "From messages"⟩]
    ∧ ∀ p ∈ (get_chat_participants penvC4).participants, p.email ≠ "unknown" := by
  decide

/-- Claim C4 as amended: when both membership endpoints return non-200 and
the scanned messages' only distinct non-empty sender display name is
"Alice" (possibly repeated across messages), the fallback returns exactly
one participant named "Alice", whose email field is the fixed placeholder
"From messages" standing in for the unknown address. -/
theorem fallback_single_sender (env : PartEnv)
    (s1 : Nat) (v1 m1 : Option (List Member)) (h1 : env.membersResp = MembersFetch.resp s1 v1 m1)
    (s2 : Nat) (v2 m2 : Option (List Member)) (h2 : env.expandResp = MembersFetch.resp s2 v2 m2)
    (hs1 : s1 ≠ 200) (hs2 : s2 ≠ 200)
    (content : List Nat) (msgs : List Msg) (nl : Option String) (ft : String)
    (hm : env.msgsResp = Fetch.resp 200 content (some msgs) nl ft)
    (hall : ∀ m ∈ msgs, senderName m = none ∨ senderName m = some "Alice")
    (hone : ∃ m ∈ msgs, senderName m = some "Alice") :
    (get_chat_participants env).participants = [⟨"Alice", "From messages"⟩] := by
  rw [participants_fallback env s1 v1 m1 h1 s2 v2 m2 h2 hs1 hs2, hm]
  simp [extract_participants_from_messages, collectSenders_single_alice msgs hall hone]

/-- Witness for the amended C4 at a concrete input. -/
theorem fallback_single_sender_witness :
    (get_chat_participants penvC4).participants = [⟨"Alice", "From messages"⟩] :=
  fallback_single_sender penvC4 403 none none rfl 404 none none rfl
    (by decide) (by decide) []
    [msgWit, ⟨some "m3", none, none, none⟩, ⟨some "m2", none, some ⟨some ⟨some "Alice"⟩⟩, none⟩]
    none "tt" rfl (by decide) (by decide)

/-! ### Claim C6: the content sanitizer -/

set_option maxRecDepth 400000 in
/-- Claim C6: the sanitizer (a total function, mirroring that the source
raises nothing on any input) maps the markup sample to exactly
"Hello World", and null and empty input to the empty string. -/
theorem clean_html_content_spec :
    clean_html_content (some "<p style=\x27x\x27>Hello&nbsp;World</p>") = "Hello World"
    ∧ clean_html_content none = ""
    ∧ clean_html_content (some "") = "" := by
  decide

/-! ### Claim C7: renderer date handling -/

/-- Claim C7: every rendered message shows `formatDate` of its timestamp;
an ISO-8601 date-time with the trailing "Z" designator parses and is
reformatted; a string that fails to parse is rendered verbatim (the
embedded conversion is total — the source catches the parse exception, so
none propagates out of the render). -/
theorem render_date_spec :
    (∀ (texts : Texts) (i : Nat) (m : Msg),
        (renderMessage texts i m).dateShown = formatDate (m.createdDateTime.getD ""))
    ∧ formatDate "2024-01-15T10:30:00Z" = "15/01/2024 10:30:00"
    ∧ formatDate "not-a-date" = "not-a-date"
    ∧ (∀ s : String, fromisoformat (pyReplace s "Z" "+00:00") = none → formatDate s = s) := by
  refine ⟨fun texts i m => rfl, by decide, by decide, fun s h => ?_⟩
  simp [formatDate, h]

/-- Witness for C7: the verbatim branch at a concrete unparseable
string. -/
theorem render_date_spec_witness : formatDate "yesterday" = "yesterday" :=
  render_date_spec.2.2.2 "yesterday" (by decide)

/-! ### Claim C9: the metadata table count -/

/-- Claim C9: for a JSON message array of any length, the message-count
cell of the report's metadata table is exactly the rendered length of the
array. -/
theorem report_count_cell (texts : Texts) (ed jf : String) (data : List Msg)
    (cc : Option Custody) (ps : List String) :
    (convert_json_to_pdf texts ed jf data cc ps).infoTable[2]?
      = some [texts.total_messages, toString data.length] := by
  rfl

end TeamsExporter
